import Mathlib

set_option maxRecDepth 16384

/-!
Verification of the highlight-selection, transcription-cache and
face-crop logic of the AI-Youtube-Shorts-Generator repository.

Each definition is a shallow embedding of a Python function of the
repository; the doc comment of each definition names the source file,
line range and the encoding choices.  Machine floats that only ever
hold exact fractional second values are modelled as rationals; Python
ints are modelled as Int (or Nat where the source value is provably
non-negative); Python string processing is modelled over List Char.
-/

/- ===================================================================
   Part 1: Components/LanguageTasks.py
   =================================================================== -/

/-- Model of one element of the `transcriptions` list consumed by
`reformat_transcript` (Components/LanguageTasks.py lines 43-71).
The source accepts an element only when it is a Python list of exactly
three items whose second item parses via `int(float(start))`; every
other element is skipped (a warning is logged).  `seg text startSec`
stands for an accepted element, with `startSec` the already-truncated
integer start; `skip` stands for any element the source skips (wrong
shape or unparseable start time). -/
inductive TransSeg
| seg (text : String) (startSec : Int)
| skip
deriving DecidableEq

/-- Model of Python `str.strip()` on a character list: drop whitespace
from both ends. -/
def stripChars (l : List Char) : List Char :=
  ((l.dropWhile Char.isWhitespace).reverse.dropWhile Char.isWhitespace).reverse

/-- Embedding of `reformat_transcript` (Components/LanguageTasks.py
lines 43-71).  For each accepted segment the source appends the line
`f"[{start_sec}s] {text.strip()}\n"`; skipped elements contribute
nothing; the joined text is returned.  The result is the character
list of the formatted text. -/
def reformat_transcript (ts : List TransSeg) : List Char :=
  (ts.filterMap fun s =>
    match s with
    | TransSeg.seg text startSec =>
        some (('[' :: (toString startSec).data) ++ ('s' :: ']' :: ' ' :: stripChars text.data) ++ ['\n'])
    | TransSeg.skip => none).flatten

/-- Helper for the regex model: consume a maximal run of decimal
digits (the `\d+` part of the pattern), returning the digits and the
remaining characters. -/
def takeDigits : List Char → List Char × List Char
  | [] => ([], [])
  | c :: cs =>
    if c.isDigit then
      let r := takeDigits cs
      (c :: r.1, r.2)
    else ([], c :: cs)

/-- Helper for the regex model: after the digits the pattern requires
the two characters `s` and `]`; on success return the characters after
the closing bracket. -/
def bracketTail : List Char → Option (List Char)
  | a :: b :: r2 => if a = 's' ∧ b = ']' then some r2 else none
  | _ => none

/-- Numeric value of a digit string, as produced by Python `int` on a
`\d+` match. -/
def digitsToNat (ds : List Char) : Nat :=
  ds.foldl (fun a c => 10 * a + (c.toNat - 48)) 0

/-- Worker for `findTimestamps`, structurally recursive on a fuel
argument.  Each recursive call consumes at least one character of the
scanned list, so fuel equal to the length of the list (as supplied by
`findTimestamps`) never runs out. -/
def findTimestampsAux : Nat → List Char → List Nat
  | 0, _ => []
  | _ + 1, [] => []
  | fuel + 1, c :: rest =>
    if c = '[' then
      match bracketTail (takeDigits rest).2 with
      | some r2 =>
          if (takeDigits rest).1 = [] then findTimestampsAux fuel rest
          else digitsToNat (takeDigits rest).1 :: findTimestampsAux fuel r2
      | none => findTimestampsAux fuel rest
    else findTimestampsAux fuel rest

/-- Model of `re.findall(r'\[(\d+)s\]', text)` followed by `int(t)`
(Components/LanguageTasks.py lines 155-156).  The scan is
left-to-right and non-overlapping: at `[` the pattern tries one or
more digits then `s]`; on success scanning resumes after the match, on
failure one character past the `[` (the skipped characters are digits
and therefore can never begin a match themselves). -/
def findTimestamps (l : List Char) : List Nat :=
  findTimestampsAux l.length l

/-- Model of one entry of the `segments` array of a decoded model
response (Components/LanguageTasks.py lines 238-247).  `invalid`
stands for an entry that is not a dict or lacks one of the keys
`segment start` / `segment end` (skipped by the `continue` at line
240); `badTimes` stands for an entry whose values make `int(...)`
raise ValueError (skipped at line 247); `clip s e` stands for an entry
whose two values convert to the integers `s` and `e`. -/
inductive ClipJson
| invalid
| badTimes
| clip (startTime stopTime : Int)
deriving DecidableEq

/-- Model of one round trip to the generative model inside the retry
loop (Components/LanguageTasks.py lines 211-280).  `failure` covers
every outcome that makes the attempt yield nothing: a raised
exception, an envelope without `message`/`content`, or content that is
not valid JSON.  `segments clips` is a successfully decoded response
with the given `segments` array (a missing key yields the empty
list, matching `data.get("segments", [])`). -/
inductive ModelResponse
| failure
| segments (clips : List ClipJson)

/-- Model of Python `range(s, e + 1)` over integers, used for the
`used_times` overlap bookkeeping. -/
def intRange (s e : Int) : List Int :=
  (List.range (e + 1 - s).toNat).map (fun k => s + k)

/-- Embedding of the clip-validation loop of one attempt
(Components/LanguageTasks.py lines 235-260).  `acc` is `valid_clips`,
`used` is `used_times` (modelled as a list with membership tests, as
the source only ever tests membership and unions in ranges).  A clip
is accepted when `start < end`, `15 <= end - start <= 60`, and either
no integer of `range(start, end + 1)` is already used or
`end - start <= 3`; the loop stops as soon as `num_clips` clips have
been accepted. -/
def processClips (num_clips : Nat) : List ClipJson → List (Int × Int) → List Int → List (Int × Int)
  | [], acc, _ => acc
  | c :: cs, acc, used =>
    match c with
    | ClipJson.invalid => processClips num_clips cs acc used
    | ClipJson.badTimes => processClips num_clips cs acc used
    | ClipJson.clip s e =>
      if s < e ∧ 15 ≤ e - s ∧ e - s ≤ 60 then
        if ((intRange s e).any (fun t => used.contains t)) = false ∨ e - s ≤ 3 then
          let acc2 := acc ++ [(s, e)]
          if acc2.length = num_clips then acc2
          else processClips num_clips cs acc2 (used ++ intRange s e)
        else processClips num_clips cs acc used
      else processClips num_clips cs acc used

/-- Insertion step of the model of Python `sorted` on integer pairs
(tuples compare lexicographically). -/
def insertPair (p : Int × Int) : List (Int × Int) → List (Int × Int)
  | [] => [p]
  | q :: qs =>
    if p.1 < q.1 ∨ (p.1 = q.1 ∧ p.2 ≤ q.2) then p :: q :: qs else q :: insertPair p qs

/-- Model of Python `sorted` on a list of integer pairs. -/
def sortPairs (l : List (Int × Int)) : List (Int × Int) :=
  l.foldr insertPair []

/-- Embedding of the tail of one successful-decode attempt
(Components/LanguageTasks.py lines 262-269): when at least `num_clips`
clips were validated the attempt returns
`sorted(valid_clips[:num_clips])`, otherwise it reports a wrong clip
count and the attempt fails (`none`). -/
def attemptResult (num_clips : Nat) (clips : List ClipJson) : Option (List (Int × Int)) :=
  let valid_clips := processClips num_clips clips [] []
  if num_clips ≤ valid_clips.length then some (sortPairs (valid_clips.take num_clips))
  else none

/-- Embedding of the retry loop of `get_highlight_via_ollama`
(Components/LanguageTasks.py lines 209-283).  Each iteration consumes
one model response (an exhausted response list behaves like a failing
call) and one unit of `retries_left`; when the retries run out the
function returns the empty list. -/
def runAttempts (num_clips : Nat) : List ModelResponse → Nat → List (Int × Int)
  | _, 0 => []
  | [], n + 1 => runAttempts num_clips [] n
  | r :: rs, n + 1 =>
    match r with
    | ModelResponse.failure => runAttempts num_clips rs n
    | ModelResponse.segments clips =>
      match attemptResult num_clips clips with
      | some res => res
      | none => runAttempts num_clips rs n

/-- Embedding of `get_highlight_via_ollama`
(Components/LanguageTasks.py lines 145-283).  The console printing,
the prompt construction and the sleeps are irrelevant to the returned
value and are omitted; the sequence of model responses is passed in
explicitly.  If the reformatted transcript strips to the empty string,
or contains no `[<digits>s]` timestamp, the fixed list `[(0, 30)]` is
returned before any model call; otherwise the retry loop runs. -/
def get_highlight_via_ollama (transcription : List TransSeg)
    (responses : List ModelResponse) (max_retries num_clips : Nat) : List (Int × Int) :=
  let reformatted := reformat_transcript transcription
  if stripChars reformatted = [] then [(0, 30)]
  else if findTimestamps reformatted = [] then [(0, 30)]
  else runAttempts num_clips responses max_retries

/- ===================================================================
   Part 2: Components/Transcription.py
   =================================================================== -/

/-- One record of a cached transcript file, the JSON object
`{'text': ..., 'start': ..., 'end': ...}` written by `save_progress`
(Components/Transcription.py lines 74-78).  The float times are
modelled as rationals; the `end` key is named `stop` because `end` is
a Lean keyword. -/
structure CachedSeg where
  text : String
  start : ℚ
  stop : ℚ
deriving DecidableEq

/-- State of one on-disk cache file as seen by a single read attempt.
`absent`: the file does not exist (the `exists()` guard fails);
`unreadable`: opening or JSON-decoding raises (the `except` branch);
`parsed l`: the file decodes to the JSON array `l` of segment
records. -/
inductive FileState
| absent
| unreadable
| parsed (l : List CachedSeg)
deriving DecidableEq

/-- On-disk state of the two cache records of one cache key:
`{key}_progress.json` and `{key}_complete.json`. -/
structure CacheState where
  progress : FileState
  complete : FileState
deriving DecidableEq

/-- Python truthiness test `if not cache_key` on the key returned by
`get_cache_key` (None when the audio file is missing, otherwise an
md5 hex digest, falsy only when empty). -/
def cacheKeyFalsy : Option String → Bool
  | none => true
  | some s => s = ""

/-- Embedding of `TranscriptionCache.get_cached_transcription`
(Components/Transcription.py lines 30-60).  The progress file is
consulted first: if it exists, reads and parses as a truthy (non
empty) value, the partial data is returned with second component
`true`.  Otherwise the complete file is consulted the same way and
returned with `false`.  Every read or parse failure falls through,
and `(none, false)` is the final fall-through result. -/
def get_cached_transcription (cache_key : Option String) (st : CacheState) :
    Option (List CachedSeg) × Bool :=
  if cacheKeyFalsy cache_key then (none, false)
  else
    match st.progress with
    | FileState.parsed l =>
      if l ≠ [] then (some l, true)
      else
        match st.complete with
        | FileState.parsed m => if m ≠ [] then (some m, false) else (none, false)
        | _ => (none, false)
    | _ =>
      match st.complete with
      | FileState.parsed m => if m ≠ [] then (some m, false) else (none, false)
      | _ => (none, false)

/-- Embedding of `TranscriptionCache.save_progress`
(Components/Transcription.py lines 62-113) restricted to inputs where
every segment has the valid `[text, start, end]` shape (on any other
input the source writes nothing and returns False).  With
`is_complete = true` the complete record is written and the progress
record is removed (the `unlink` at line 93); otherwise only the
progress record is overwritten.  The human-readable text file has no
bearing on later lookups and is not modelled.  A falsy cache key
leaves the state unchanged. -/
def save_progress (st : CacheState) (cache_key : Option String)
    (segs : List (String × ℚ × ℚ)) (is_complete : Bool) : CacheState :=
  if cacheKeyFalsy cache_key then st
  else
    let ser := segs.map (fun t => (⟨t.1, t.2.1, t.2.2⟩ : CachedSeg))
    if is_complete then ⟨FileState.absent, FileState.parsed ser⟩
    else ⟨FileState.parsed ser, st.complete⟩

/-- One segment returned by the speech-to-text engine for one chunk,
with times relative to the chunk start (Components/Transcription.py
lines 185-201, spec section 6). -/
structure EngineSeg where
  text : String
  start : ℚ
  stop : ℚ

/-- The `[text, start, end]` triple shape used by `transcribe_audio`
for accumulated segments (Components/Transcription.py line 162). -/
def segTriple (s : CachedSeg) : String × ℚ × ℚ :=
  (s.text, s.start, s.stop)

/-- Number of chunks produced by `range(0, audio_len_ms, step)` with
positive step, as iterated in `split_audio`
(Components/Transcription.py line 122). -/
def numChunks (audio_len_ms step : Nat) : Nat :=
  (audio_len_ms + step - 1) / step

/-- Embedding of `split_audio` (Components/Transcription.py lines
115-132), success path.  Chunk `k` starts at millisecond
`k * chunk_duration * 1000`; the stored start time is that offset
divided by 1000, i.e. exactly `k * chunk_duration` seconds.  The
chunk audio itself is not modelled: the engine is keyed by the chunk
index. -/
def split_audio (audio_len_ms chunk_duration : Nat) : List (Nat × ℚ) :=
  (List.range (numChunks audio_len_ms (chunk_duration * 1000))).map
    (fun k => (k, (k * chunk_duration : ℚ)))

/-- Embedding of the per-chunk segment processing
(Components/Transcription.py lines 185-201): each engine segment with
non-empty stripped text contributes the triple
`[text, start + start_time, end + start_time]`. -/
def processChunk (engine : Nat → List EngineSeg) (k : Nat) (start_time : ℚ) :
    List (String × ℚ × ℚ) :=
  (engine k).filterMap fun s =>
    let t := stripChars s.text.data
    if t = [] then none
    else some (String.mk t, s.start + start_time, s.stop + start_time)

/-- Embedding of `transcribe_audio` (Components/Transcription.py lines
134-236), success path (no chunk raises).  The cache state and the
engine are explicit inputs; `audio_exists` and `file_size` model the
two guards at lines 141-148, `cache_key` the guard at line 154.  A
complete cache hit is returned as triples; a partial hit seeds
`current_segments` and the loop resumes at chunk
`len(current_segments) // 3`; the chunk loop appends the shifted
segments of every remaining chunk.  The checkpoint writes do not
affect the returned value and are not modelled here. -/
def transcribe_audio (audio_exists : Bool) (file_size : Nat)
    (cache_key : Option String) (st : CacheState)
    (engine : Nat → List EngineSeg) (audio_len_ms chunk_duration : Nat) :
    List (String × ℚ × ℚ) :=
  if audio_exists = false then []
  else if file_size = 0 then []
  else if cacheKeyFalsy cache_key then []
  else
    let lookup := get_cached_transcription cache_key st
    if lookup.1.isSome ∧ lookup.2 = false then (lookup.1.getD []).map segTriple
    else
      let current := if lookup.1.isSome ∧ lookup.2 = true then (lookup.1.getD []).map segTriple else []
      let last_chunk := if current = [] then 0 else current.length / 3
      current ++ ((split_audio audio_len_ms chunk_duration).drop last_chunk).flatMap
        (fun c => processChunk engine c.1 c.2)

/- ===================================================================
   Part 3: Components/FaceCrop.py
   =================================================================== -/

/-- One face bounding box `(x, y, w, h)` returned by
`detectMultiScale` (Components/FaceCrop.py line 129); OpenCV boxes
have non-negative integer coordinates and sizes. -/
structure Face where
  x : Nat
  y : Nat
  w : Nat
  h : Nat
deriving DecidableEq

/-- Horizontal center `x1 + w1 // 2` of a face box
(Components/FaceCrop.py line 135). -/
def faceCenter (f : Face) : Int :=
  (f.x + f.w / 2 : Nat)

/-- The target width `vertical_width = int(vertical_height * 9 / 16)`
(Components/FaceCrop.py lines 96-97); for frame heights below 2^49
the float product is exact, so the value is the floor of
`height * 9 / 16`. -/
def verticalWidth (original_height : Nat) : Nat :=
  original_height * 9 / 16

/-- Crop-window state carried across frames of the loop of
`crop_to_vertical` (Components/FaceCrop.py lines 109-155): the Python
variables `x_start`, `x_end` and `frame_count`. -/
structure CropState where
  x_start : Int
  x_end : Int
  frame_count : Nat
deriving DecidableEq

/-- Embedding of the face-selection block (Components/FaceCrop.py
lines 131-140): starting from the default box
`(x_start, 0, vertical_width, vertical_height)`, the first detected
face whose center lies strictly inside the current window replaces
it, and `centerX = x + w // 2` is computed from the selected box. -/
def computeCenterX (faces : List Face) (x_start x_end : Int) (vertical_width : Nat) : Int :=
  match faces.find? (fun f => decide (x_start < faceCenter f) && decide (faceCenter f < x_end)) with
  | some f => faceCenter f
  | none => x_start + (vertical_width : Int) / 2

/-- Embedding of the hysteresis block (Components/FaceCrop.py lines
141-145): on the first frame, or when the signed difference
`x_start - (centerX - half_width)` is below 1, the window is kept;
otherwise it is recentered to
`(centerX - half_width, centerX + half_width)`. -/
def hysteresisWindow (st : CropState) (centerX half_width : Int) : Int × Int :=
  if st.frame_count = 0 ∨ st.x_start - (centerX - half_width) < 1 then (st.x_start, st.x_end)
  else (centerX - half_width, centerX + half_width)

/-- Normalisation of one Python slice bound by numpy for an axis of
size `n`: negative indices count from the end, then the result is
clamped into `[0, n]`. -/
def npIndex (n : Nat) (i : Int) : Int :=
  max 0 (min (if i < 0 then i + n else i) n)

/-- Width of the numpy slice `frame[:, a:b]` for a frame of width
`original_width` (Components/FaceCrop.py line 148). -/
def pySliceWidth (original_width : Nat) (a b : Int) : Int :=
  max 0 (npIndex original_width b - npIndex original_width a)

/-- Embedding of one iteration of the frame loop of
`crop_to_vertical` (Components/FaceCrop.py lines 128-155): select a
face, apply the hysteresis update, increment the frame counter, and
if the resulting slice of the frame has zero width, reset the window
to the centered default before writing.  Returns the window of the
written frame together with the state carried into the next
iteration. -/
def cropStep (original_width : Nat) (vertical_width : Nat) (st : CropState)
    (faces : List Face) : (Int × Int) × CropState :=
  let half_width := (vertical_width : Int) / 2
  let centerX := computeCenterX faces st.x_start st.x_end vertical_width
  let win := hysteresisWindow st centerX half_width
  if pySliceWidth original_width win.1 win.2 = 0 then
    let xs := ((original_width : Int) - vertical_width) / 2
    ((xs, xs + vertical_width), ⟨xs, xs + vertical_width, st.frame_count + 1⟩)
  else
    (win, ⟨win.1, win.2, st.frame_count + 1⟩)

/-- The initial centered window `x_start = (original_width -
vertical_width) // 2`, `x_end = x_start + vertical_width`
(Components/FaceCrop.py lines 109-110); the source only reaches it
when `original_width >= vertical_width`. -/
def initialCrop (original_width vertical_width : Nat) : CropState :=
  ⟨((original_width : Int) - vertical_width) / 2,
   ((original_width : Int) - vertical_width) / 2 + vertical_width, 0⟩

/-- Embedding of the whole frame loop of `crop_to_vertical`
(Components/FaceCrop.py lines 123-159) over a finite list of frames,
each frame represented by its detected face list.  Returns the list
of written crop windows and the final state. -/
def cropRun (original_width vertical_width : Nat) (frames : List (List Face)) :
    List (Int × Int) × CropState :=
  frames.foldl
    (fun acc faces =>
      let r := cropStep original_width vertical_width acc.2 faces
      (acc.1 ++ [r.1], r.2))
    ([], initialCrop original_width vertical_width)

/-- Embedding of `crop_to_vertical` (Components/FaceCrop.py lines
69-196) at the level the claims need: the dimension setup at lines
96-110 including the early failure when the original width is below
the target width, then the frame loop.  Audio extraction and the
final remux do not affect the crop windows and are omitted. -/
def crop_to_vertical (original_width original_height : Nat)
    (frames : List (List Face)) : Option (List (Int × Int)) :=
  let vw := verticalWidth original_height
  if original_width < vw then none
  else some (cropRun original_width vw frames).1

/-- A cache file state from which no record can be read and parsed:
the file is absent, or opening/decoding it raises. -/
def readFailed : FileState → Bool
  | FileState.parsed _ => false
  | _ => true

/-- Invariant of the crop window `(x_start, x_end)` carried across
frames: its width is the target width or twice the half width (the
latter after a recentering), its start never exceeds the centered
default start, and its end is never negative. -/
def winInv (ow vw : Nat) (w : Int × Int) : Prop :=
  (w.2 - w.1 = (vw : Int) ∨ w.2 - w.1 = 2 * ((vw : Int) / 2))
  ∧ w.1 ≤ ((ow : Int) - vw) / 2
  ∧ 0 ≤ w.2

/-- Property of every written crop window: target (or recentered)
width, and a start inside `[0, original_width - vertical_width]`. -/
def writtenOk (ow vw : Nat) (w : Int × Int) : Prop :=
  (w.2 - w.1 = (vw : Int) ∨ w.2 - w.1 = 2 * ((vw : Int) / 2))
  ∧ 0 ≤ w.1 ∧ w.1 ≤ (ow : Int) - vw

/- ===================================================================
   Sanity checks on concrete inputs
   =================================================================== -/

example : get_highlight_via_ollama [] [] 5 2 = [(0, 30)] := by decide

example : processClips 2 [ClipJson.clip 10 40, ClipJson.clip 38 70] [] [] = [(10, 40)] := by decide

example : attemptResult 2 [ClipJson.clip 10 40, ClipJson.clip 38 70] = none := by decide

example : attemptResult 2 [ClipJson.clip 10 40, ClipJson.clip 45 70] = some [(10, 40), (45, 70)] := by decide

example : findTimestamps "[12s] hi [3s] x".data = [12, 3] := by decide

example : reformat_transcript [TransSeg.seg " hi " 4] = "[4s] hi\n".data := by decide

example :
    get_cached_transcription (some "k")
      ⟨FileState.parsed [⟨"a", 0, 1⟩], FileState.parsed [⟨"b", 1, 2⟩]⟩
    = (some [⟨"a", 0, 1⟩], true) := by decide

example :
    get_cached_transcription (some "k") ⟨FileState.unreadable, FileState.parsed [⟨"b", 1, 2⟩]⟩
    = (some [⟨"b", 1, 2⟩], false) := by decide

example :
    get_cached_transcription (some "k") ⟨FileState.unreadable, FileState.unreadable⟩
    = (none, false) := by decide

example : verticalWidth 91 = 51 := by decide

example :
    (cropRun 200 51 [[], [⟨70, 0, 10, 10⟩]]).1 = [(74, 125), (50, 100)] := by decide

example :
    (cropRun 200 90 [[], [⟨81, 0, 40, 30⟩]]).1 = [(55, 145), (55, 145)] := by decide

example :
    (cropRun 200 51 [[], [⟨70, 0, 10, 10⟩], [⟨46, 0, 10, 10⟩], [⟨22, 0, 10, 10⟩], [⟨0, 0, 6, 10⟩]]).1
    = [(74, 125), (50, 100), (26, 76), (2, 52), (74, 125)] := by decide

example :
    (cropRun 200 51 [[], [⟨70, 0, 10, 10⟩], [⟨46, 0, 10, 10⟩], [⟨22, 0, 10, 10⟩], [⟨0, 0, 6, 10⟩]]).2
    = ⟨74, 125, 5⟩ := by decide

/- ===================================================================
   Helper lemmas: highlight selection
   =================================================================== -/

theorem insertPair_length (p : Int × Int) (l : List (Int × Int)) :
    (insertPair p l).length = l.length + 1 := by
  induction l with
  | nil => rfl
  | cons q qs ih =>
    simp only [insertPair]
    split <;> simp [ih]

theorem mem_insertPair {p q : Int × Int} {l : List (Int × Int)} :
    q ∈ insertPair p l ↔ q = p ∨ q ∈ l := by
  induction l with
  | nil => simp [insertPair]
  | cons r rs ih =>
    simp only [insertPair]
    split
    · simp [or_comm, or_assoc, or_left_comm]
    · simp [ih]
      tauto

theorem sortPairs_length (l : List (Int × Int)) : (sortPairs l).length = l.length := by
  induction l with
  | nil => rfl
  | cons p ps ih =>
    simp only [sortPairs, List.foldr] at ih ⊢
    rw [insertPair_length, ih]
    simp

theorem mem_sortPairs {q : Int × Int} {l : List (Int × Int)} :
    q ∈ sortPairs l ↔ q ∈ l := by
  induction l with
  | nil => simp [sortPairs]
  | cons p ps ih =>
    simp only [sortPairs, List.foldr] at ih ⊢
    rw [mem_insertPair]
    simp [ih]

/-- The windows accepted by the validation loop all satisfy the
duration constraint checked at line 250 of Components/LanguageTasks.py. -/
theorem processClips_bounds (nc : Nat) (clips : List ClipJson) :
    ∀ acc used, (∀ p ∈ acc, p.1 < p.2 ∧ 15 ≤ p.2 - p.1 ∧ p.2 - p.1 ≤ 60) →
      ∀ p ∈ processClips nc clips acc used, p.1 < p.2 ∧ 15 ≤ p.2 - p.1 ∧ p.2 - p.1 ≤ 60 := by
  induction clips with
  | nil =>
    intro acc used h
    simpa [processClips] using h
  | cons c cs ih =>
    intro acc used h
    cases c with
    | invalid => exact ih _ _ h
    | badTimes => exact ih _ _ h
    | clip s e =>
      simp only [processClips]
      split
      · rename_i hdur
        have hext : ∀ p ∈ acc ++ [(s, e)], p.1 < p.2 ∧ 15 ≤ p.2 - p.1 ∧ p.2 - p.1 ≤ 60 := by
          intro p hp
          rcases List.mem_append.mp hp with h1 | h1
          · exact h p h1
          · simp only [List.mem_singleton] at h1
            subst h1
            exact hdur
        split
        · split
          · exact hext
          · exact ih _ _ hext
        · exact ih _ _ h
      · exact ih _ _ h

/-- A successful attempt returns exactly `num_clips` windows, all
satisfying the duration constraint. -/
theorem attemptResult_spec {nc : Nat} {clips : List ClipJson} {res : List (Int × Int)}
    (h : attemptResult nc clips = some res) :
    res.length = nc ∧ ∀ p ∈ res, p.1 < p.2 ∧ 15 ≤ p.2 - p.1 ∧ p.2 - p.1 ≤ 60 := by
  simp only [attemptResult] at h
  split at h
  · rename_i hle
    injection h with h
    subst h
    refine ⟨?_, ?_⟩
    · rw [sortPairs_length, List.length_take]
      omega
    · intro p hp
      have h1 := mem_sortPairs.mp hp
      have h2 := List.take_subset nc _ h1
      exact processClips_bounds nc clips [] [] (by simp) p h2
  · cases h

/-- The retry loop either fails with the empty list or forwards the
result of some successful attempt. -/
theorem runAttempts_spec (nc : Nat) (n : Nat) :
    ∀ rs : List ModelResponse,
      runAttempts nc rs n = []
      ∨ ((runAttempts nc rs n).length = nc
         ∧ ∀ p ∈ runAttempts nc rs n, p.1 < p.2 ∧ 15 ≤ p.2 - p.1 ∧ p.2 - p.1 ≤ 60) := by
  induction n with
  | zero =>
    intro rs
    left
    cases rs <;> rfl
  | succ n ih =>
    intro rs
    cases rs with
    | nil => simpa [runAttempts] using ih []
    | cons r rs2 =>
      cases r with
      | failure => simpa [runAttempts] using ih rs2
      | segments clips =>
        simp only [runAttempts]
        cases h : attemptResult nc clips with
        | none => simpa using ih rs2
        | some res =>
          right
          simpa using attemptResult_spec h

/- ===================================================================
   Claim C1
   =================================================================== -/

/-- C1 counterexample: on an empty transcript with `num_clips = 2`
the function returns the fixed fallback `[(0, 30)]`, whose length is
1: neither exactly `num_clips` nor empty, so the claim as stated is
false. -/
theorem C1_counterexample :
    ¬ (((get_highlight_via_ollama [] [] 5 2).length = 2)
        ∨ get_highlight_via_ollama [] [] 5 2 = []) := by
  decide

/-- C1 amended: for every transcript input, every retry budget, every
`num_clips` and every sequence of model responses, the returned list
is the fixed fallback `[(0, 30)]` (taken when the reformatted
transcript is empty or has no timestamp), or has length exactly
`num_clips`, or is empty; and every returned window `(s, e)`
satisfies `15 ≤ e - s ≤ 60`. -/
theorem C1_amended_thm (ts : List TransSeg) (rs : List ModelResponse) (mr nc : Nat) :
    (get_highlight_via_ollama ts rs mr nc = [(0, 30)]
      ∨ (get_highlight_via_ollama ts rs mr nc).length = nc
      ∨ get_highlight_via_ollama ts rs mr nc = [])
    ∧ ∀ p ∈ get_highlight_via_ollama ts rs mr nc, 15 ≤ p.2 - p.1 ∧ p.2 - p.1 ≤ 60 := by
  simp only [get_highlight_via_ollama]
  split
  · refine ⟨Or.inl rfl, ?_⟩
    intro p hp
    simp only [List.mem_singleton] at hp
    subst hp
    decide
  · split
    · refine ⟨Or.inl rfl, ?_⟩
      intro p hp
      simp only [List.mem_singleton] at hp
      subst hp
      decide
    · rcases runAttempts_spec nc mr rs with h | ⟨h1, h2⟩
      · exact ⟨Or.inr (Or.inr h), by simp [h]⟩
      · exact ⟨Or.inr (Or.inl h1), fun p hp => ⟨(h2 p hp).2.1, (h2 p hp).2.2⟩⟩

/-- C1 amended, witnessed at a concrete input. -/
theorem C1_amended_witness :
    (get_highlight_via_ollama [] [] 5 2 = [(0, 30)]
      ∨ (get_highlight_via_ollama [] [] 5 2).length = 2
      ∨ get_highlight_via_ollama [] [] 5 2 = [])
    ∧ ∀ p ∈ get_highlight_via_ollama [] [] 5 2, 15 ≤ p.2 - p.1 ∧ p.2 - p.1 ≤ 60 :=
  C1_amended_thm [] [] 5 2

/- ===================================================================
   Claim C2
   =================================================================== -/

/-- C2 counterexample: with `num_clips = 2` and the model proposing
exactly `(10, 40)` and `(38, 70)`, the attempt does not return both
windows: the integers 38, 39, 40 of the first accepted range are
already in `used_times`, and the duration tie-break `70 - 38 ≤ 3`
fails, so `(38, 70)` is rejected. -/
theorem C2_counterexample :
    attemptResult 2 [ClipJson.clip 10 40, ClipJson.clip 38 70] ≠ some [(10, 40), (38, 70)] := by
  decide

/-- C2 amended: in that attempt `(10, 40)` is accepted and `(38, 70)`
is rejected (its range intersects the used set and its duration 32
exceeds the tie-break bound 3), so only one valid clip is collected,
fewer than `num_clips = 2`, and the attempt fails, consuming a
retry. -/
theorem C2_amended_thm :
    processClips 2 [ClipJson.clip 10 40, ClipJson.clip 38 70] [] [] = [(10, 40)]
    ∧ attemptResult 2 [ClipJson.clip 10 40, ClipJson.clip 38 70] = none := by
  decide

/- ===================================================================
   Claim C10
   =================================================================== -/

/-- C10: when the reformatted transcript strips to nothing, or
contains no `[<digits>s]` timestamp, `get_highlight_via_ollama`
returns the fixed single-window list `[(0, 30)]` for every retry
budget, every `num_clips` and every response sequence (so in
particular without consulting the model), and the result has length 1
regardless of `num_clips`. -/
theorem C10_thm (ts : List TransSeg) (rs : List ModelResponse) (mr nc : Nat)
    (h : stripChars (reformat_transcript ts) = []
         ∨ findTimestamps (reformat_transcript ts) = []) :
    get_highlight_via_ollama ts rs mr nc = [(0, 30)]
    ∧ (get_highlight_via_ollama ts rs mr nc).length = 1 := by
  unfold get_highlight_via_ollama
  rcases h with h | h
  · simp [h]
  · by_cases h2 : stripChars (reformat_transcript ts) = []
    · simp [h2]
    · simp [h2, h]

/-- C10, witnessed at the empty transcript with `num_clips = 2`. -/
theorem C10_witness :
    (stripChars (reformat_transcript []) = []
      ∨ findTimestamps (reformat_transcript []) = [])
    ∧ get_highlight_via_ollama [] [] 5 2 = [(0, 30)]
    ∧ (get_highlight_via_ollama [] [] 5 2).length = 1 :=
  ⟨Or.inl (by decide), C10_thm [] [] 5 2 (Or.inl (by decide))⟩

/- ===================================================================
   Claim C3
   =================================================================== -/

/-- C3 counterexample: with a non-empty parsed progress record and a
non-empty parsed complete record both on disk, the lookup returns the
partial record flagged partial, not the complete record: the progress
file is consulted first (Components/Transcription.py lines 36-47). -/
theorem C3_counterexample :
    get_cached_transcription (some "k")
        ⟨FileState.parsed [⟨"p", 0, 1⟩], FileState.parsed [⟨"c", 0, 1⟩, ⟨"d", 1, 2⟩]⟩
      = (some [⟨"p", 0, 1⟩], true)
    ∧ get_cached_transcription (some "k")
        ⟨FileState.parsed [⟨"p", 0, 1⟩], FileState.parsed [⟨"c", 0, 1⟩, ⟨"d", 1, 2⟩]⟩
      ≠ (some [⟨"c", 0, 1⟩, ⟨"d", 1, 2⟩], false) := by
  decide

/-- C3 amended: when both records exist and parse as non-empty JSON,
`get_cached_transcription` returns the PARTIAL record with the
partial flag `true` (the progress file takes precedence); the
complete record supersedes the partial one only through
`save_progress(..., is_complete=True)`, which removes the progress
file, after which the lookup returns the complete record with the
flag `false`. -/
theorem C3_amended_thm :
    (∀ (k : String) (p m : List CachedSeg), k ≠ "" → p ≠ [] →
      get_cached_transcription (some k) ⟨FileState.parsed p, FileState.parsed m⟩
        = (some p, true))
    ∧ (∀ (k : String) (st : CacheState) (segs : List (String × ℚ × ℚ)), k ≠ "" → segs ≠ [] →
      get_cached_transcription (some k) (save_progress st (some k) segs true)
        = (some (segs.map (fun t => (⟨t.1, t.2.1, t.2.2⟩ : CachedSeg))), false)) := by
  constructor
  · intro k p m hk hp
    simp [get_cached_transcription, cacheKeyFalsy, hk, hp]
  · intro k st segs hk hs
    simp [get_cached_transcription, save_progress, cacheKeyFalsy, hk,
      List.map_eq_nil_iff, hs]

/-- C3 amended, witnessed at concrete cache states. -/
theorem C3_amended_witness :
    get_cached_transcription (some "k")
        ⟨FileState.parsed [⟨"p", 0, 1⟩], FileState.parsed [⟨"c", 0, 1⟩]⟩
      = (some [⟨"p", 0, 1⟩], true)
    ∧ get_cached_transcription (some "k")
        (save_progress ⟨FileState.parsed [⟨"p", 0, 1⟩], FileState.absent⟩ (some "k")
          [("c", 0, 1)] true)
      = (some [⟨"c", 0, 1⟩], false) :=
  ⟨C3_amended_thm.1 "k" [⟨"p", 0, 1⟩] [⟨"c", 0, 1⟩] (by decide) (by decide),
   C3_amended_thm.2 "k" ⟨FileState.parsed [⟨"p", 0, 1⟩], FileState.absent⟩
     [("c", 0, 1)] (by decide) (by decide)⟩

/- ===================================================================
   Claim C4
   =================================================================== -/

/-- C4: for every cache key (including invalid ones) and every
on-disk state in which neither the progress nor the complete file can
be read and parsed, the lookup behaves as a cache miss and returns
`(none, false)`.  In the embedding the read failures (the `except`
branches of Components/Transcription.py lines 45-46 and 57-58) are
ordinary fall-through values, so the function is total: no disk state
makes it raise. -/
theorem C4_thm (cache_key : Option String) (st : CacheState)
    (h1 : readFailed st.progress = true) (h2 : readFailed st.complete = true) :
    get_cached_transcription cache_key st = (none, false) := by
  obtain ⟨pf, cf⟩ := st
  cases hk : cacheKeyFalsy cache_key <;> cases pf <;> cases cf <;>
    simp_all [get_cached_transcription, readFailed]

/-- C4, witnessed at a concrete corrupted cache state. -/
theorem C4_witness :
    readFailed FileState.unreadable = true
    ∧ readFailed FileState.absent = true
    ∧ get_cached_transcription (some "k") ⟨FileState.unreadable, FileState.absent⟩
      = (none, false) :=
  ⟨rfl, rfl, C4_thm (some "k") ⟨FileState.unreadable, FileState.absent⟩ rfl rfl⟩

/- ===================================================================
   Claim C8
   =================================================================== -/

theorem drop_range_eq_filter (n k : Nat) :
    (List.range n).drop k = (List.range n).filter (fun i => decide (k ≤ i)) := by
  induction n with
  | zero => simp
  | succ m ih =>
    rw [List.range_succ]
    by_cases h : k ≤ m
    · rw [List.drop_append_of_le_length (by simpa using h), List.filter_append, ih]
      simp [h]
    · have h1 : (List.range m ++ [m]).length ≤ k := by
        simp
        omega
      have h2 : (List.range m).drop k = [] := List.drop_eq_nil_of_le (by simp; omega)
      rw [List.drop_eq_nil_of_le h1, List.filter_append, ← ih, h2]
      simp [h]

/-- Dropping the first `k` chunks of the split is the same as keeping
exactly the chunks whose index is at least `k`. -/
theorem split_audio_drop (audio_len_ms cd k : Nat) :
    (split_audio audio_len_ms cd).drop k
      = (split_audio audio_len_ms cd).filter (fun c => decide (k ≤ c.1)) := by
  unfold split_audio
  rw [← List.map_drop, drop_range_eq_filter, List.filter_map]
  congr 1

/-- C8: when the lookup yields a partial cached transcript with the
`n` segments `p`, `transcribe_audio` returns those `n` segments (as
triples) followed by the shifted output of exactly the chunks with
index at least `n / 3`: chunks below the resume index are skipped,
all others are transcribed, and their segments are appended after the
cached ones. -/
theorem C8_thm (p : List CachedSeg) (k : String) (cf : FileState)
    (engine : Nat → List EngineSeg) (file_size audio_len_ms cd : Nat)
    (hp : p ≠ []) (hk : k ≠ "") (hfs : file_size ≠ 0) :
    transcribe_audio true file_size (some k) ⟨FileState.parsed p, cf⟩ engine audio_len_ms cd
      = p.map segTriple
        ++ ((split_audio audio_len_ms cd).filter (fun c => decide (p.length / 3 ≤ c.1))).flatMap
            (fun c => processChunk engine c.1 c.2) := by
  have hlookup : get_cached_transcription (some k) ⟨FileState.parsed p, cf⟩ = (some p, true) := by
    simp [get_cached_transcription, cacheKeyFalsy, hk, hp]
  have hcur : (p.map segTriple) ≠ [] := by
    simp [List.map_eq_nil_iff, hp]
  simp only [transcribe_audio, hlookup]
  rw [← split_audio_drop]
  simp [cacheKeyFalsy, hk, hfs, hcur]

/-- C8, witnessed at a concrete partial cache with 3 segments and a
two-chunk audio file (the resume index is 1, so chunk 0 is skipped
and chunk 1 is transcribed). -/
theorem C8_witness :
    ([(⟨"a", 0, 1⟩ : CachedSeg), ⟨"b", 1, 2⟩, ⟨"c", 2, 3⟩] ≠ ([] : List CachedSeg))
    ∧ ("k" : String) ≠ ""
    ∧ (1 : Nat) ≠ 0
    ∧ transcribe_audio true 1 (some "k")
        ⟨FileState.parsed [⟨"a", 0, 1⟩, ⟨"b", 1, 2⟩, ⟨"c", 2, 3⟩], FileState.absent⟩
        (fun _ => [⟨"x", 0, 1⟩]) 60000 30
      = [⟨"a", 0, 1⟩, ⟨"b", 1, 2⟩, ⟨"c", 2, 3⟩].map segTriple
        ++ ((split_audio 60000 30).filter (fun c => decide (3 / 3 ≤ c.1))).flatMap
            (fun c => processChunk (fun _ => [⟨"x", 0, 1⟩]) c.1 c.2) :=
  ⟨by decide, by decide, by decide,
   C8_thm [⟨"a", 0, 1⟩, ⟨"b", 1, 2⟩, ⟨"c", 2, 3⟩] "k" FileState.absent
     (fun _ => [⟨"x", 0, 1⟩]) 1 60000 30 (by decide) (by decide) (by decide)⟩

/- ===================================================================
   Claim C9
   =================================================================== -/

theorem pairwise_flatMap_of {α β : Type} {R : β → β → Prop} {f : α → List β} :
    ∀ l : List α, (∀ a ∈ l, (f a).Pairwise R) →
      l.Pairwise (fun a b => ∀ x ∈ f a, ∀ y ∈ f b, R x y) →
      (l.flatMap f).Pairwise R := by
  intro l
  induction l with
  | nil => intro h1 h2; simp
  | cons a t ih =>
    intro h1 h2
    rw [List.flatMap_cons, List.pairwise_append]
    rw [List.pairwise_cons] at h2
    refine ⟨h1 a (by simp), ih (fun x hx => h1 x (by simp [hx])) h2.2, ?_⟩
    intro x hx y hy
    rcases List.mem_flatMap.mp hy with ⟨b, hb, hyb⟩
    exact h2.1 b hb x hx y hyb

/-- C9: on a cache miss, assuming the engine returns for each chunk
segments with `0 ≤ start < end ≤ chunk_duration` (relative to the
chunk) sorted by start, every segment returned by `transcribe_audio`
satisfies `start < end` and the whole list is sorted (monotonically
non-decreasing) by start, because the segments of chunk `k` are
shifted by the chunk offset `k * chunk_duration`. -/
theorem C9_thm (file_size : Nat) (k : String) (st : CacheState)
    (engine : Nat → List EngineSeg) (audio_len_ms cd : Nat)
    (hfs : file_size ≠ 0) (hk : k ≠ "")
    (hmiss : get_cached_transcription (some k) st = (none, false))
    (hbounds : ∀ i : Nat, ∀ s ∈ engine i, 0 ≤ s.start ∧ s.start < s.stop ∧ s.stop ≤ (cd : ℚ))
    (hsorted : ∀ i : Nat, (engine i).Pairwise (fun a b => a.start ≤ b.start)) :
    (∀ t ∈ transcribe_audio true file_size (some k) st engine audio_len_ms cd,
        t.2.1 < t.2.2)
    ∧ (transcribe_audio true file_size (some k) st engine audio_len_ms cd).Pairwise
        (fun a b => a.2.1 ≤ b.2.1) := by
  have hred : transcribe_audio true file_size (some k) st engine audio_len_ms cd
      = (split_audio audio_len_ms cd).flatMap (fun c => processChunk engine c.1 c.2) := by
    simp only [transcribe_audio, hmiss]
    simp [cacheKeyFalsy, hk, hfs]
  rw [hred]
  constructor
  · intro t ht
    rcases List.mem_flatMap.mp ht with ⟨c, hc, htc⟩
    simp only [processChunk] at htc
    rcases List.mem_filterMap.mp htc with ⟨s, hs, hst⟩
    by_cases hemp : stripChars s.text.data = []
    · rw [if_pos hemp] at hst
      cases hst
    · rw [if_neg hemp] at hst
      injection hst with hst
      subst hst
      have hb := hbounds c.1 s hs
      simp only
      linarith [hb.2.1]
  · apply pairwise_flatMap_of
    · intro c hc
      simp only [processChunk]
      rw [List.pairwise_filterMap]
      refine (hsorted c.1).imp ?_
      intro a b hab x hx y hy
      by_cases he1 : stripChars a.text.data = []
      · rw [if_pos he1] at hx
        cases hx
      · by_cases he2 : stripChars b.text.data = []
        · rw [if_pos he2] at hy
          cases hy
        · rw [if_neg he1] at hx
          rw [if_neg he2] at hy
          cases hx
          cases hy
          simp only
          linarith [hab]
    · unfold split_audio
      rw [List.pairwise_map]
      refine (List.pairwise_lt_range _).imp ?_
      intro i j hij x hx y hy
      simp only [processChunk] at hx hy
      rcases List.mem_filterMap.mp hx with ⟨s, hs, hsx⟩
      rcases List.mem_filterMap.mp hy with ⟨r, hr, hry⟩
      by_cases he1 : stripChars s.text.data = []
      · rw [if_pos he1] at hsx
        cases hsx
      · by_cases he2 : stripChars r.text.data = []
        · rw [if_pos he2] at hry
          cases hry
        · rw [if_neg he1] at hsx
          rw [if_neg he2] at hry
          injection hsx with hsx
          injection hry with hry
          subst hsx
          subst hry
          have h1 := hbounds i s hs
          have h2 := hbounds j r hr
          have hij2 : (i : ℚ) + 1 ≤ (j : ℚ) := by exact_mod_cast hij
          have hcd : (0 : ℚ) ≤ (cd : ℚ) := by positivity
          have hmul : ((i : ℚ) + 1) * cd ≤ (j : ℚ) * cd :=
            mul_le_mul_of_nonneg_right hij2 hcd
          simp only
          nlinarith [h1.2.1, h1.2.2, h2.1]

/-- C9, witnessed at a concrete fresh run with two chunks. -/
theorem C9_witness :
    (1 : Nat) ≠ 0
    ∧ ("k" : String) ≠ ""
    ∧ get_cached_transcription (some "k") ⟨FileState.absent, FileState.absent⟩ = (none, false)
    ∧ (∀ i : Nat, ∀ s ∈ (fun (_ : Nat) => [(⟨"hi", 0, 1⟩ : EngineSeg), ⟨"yo", 1, 2⟩]) i,
        0 ≤ s.start ∧ s.start < s.stop ∧ s.stop ≤ ((30 : Nat) : ℚ))
    ∧ (∀ i : Nat, ((fun (_ : Nat) => [(⟨"hi", 0, 1⟩ : EngineSeg), ⟨"yo", 1, 2⟩]) i).Pairwise
        (fun a b => a.start ≤ b.start))
    ∧ ((∀ t ∈ transcribe_audio true 1 (some "k") ⟨FileState.absent, FileState.absent⟩
          (fun _ => [⟨"hi", 0, 1⟩, ⟨"yo", 1, 2⟩]) 60000 30, t.2.1 < t.2.2)
       ∧ (transcribe_audio true 1 (some "k") ⟨FileState.absent, FileState.absent⟩
          (fun _ => [⟨"hi", 0, 1⟩, ⟨"yo", 1, 2⟩]) 60000 30).Pairwise
          (fun a b => a.2.1 ≤ b.2.1)) := by
  have hb : ∀ i : Nat, ∀ s ∈ (fun (_ : Nat) => [(⟨"hi", 0, 1⟩ : EngineSeg), ⟨"yo", 1, 2⟩]) i,
      0 ≤ s.start ∧ s.start < s.stop ∧ s.stop ≤ ((30 : Nat) : ℚ) := by
    intro i s hs
    simp only [List.mem_cons, List.mem_singleton] at hs
    rcases hs with h | h | h
    · subst h
      norm_num
    · subst h
      norm_num
    · cases h
  have hso : ∀ i : Nat, ((fun (_ : Nat) => [(⟨"hi", 0, 1⟩ : EngineSeg), ⟨"yo", 1, 2⟩]) i).Pairwise
      (fun a b => a.start ≤ b.start) := by
    intro i
    refine List.Pairwise.cons ?_ (List.pairwise_singleton _ _)
    intro b hb2
    simp only [List.mem_singleton] at hb2
    subst hb2
    norm_num
  exact ⟨by decide, by decide, by decide, hb, hso,
    C9_thm 1 "k" ⟨FileState.absent, FileState.absent⟩
      (fun _ => [⟨"hi", 0, 1⟩, ⟨"yo", 1, 2⟩]) 60000 30
      (by decide) (by decide) (by decide) hb hso⟩

/- ===================================================================
   Helper lemmas: face crop
   =================================================================== -/

/-- The selected center is either the default (window center) or
comes from a detected face and is then non-negative. -/
theorem computeCenterX_cases (faces : List Face) (a b : Int) (vw : Nat) :
    computeCenterX faces a b vw = a + (vw : Int) / 2
    ∨ 0 ≤ computeCenterX faces a b vw := by
  unfold computeCenterX
  cases h : faces.find? (fun f => decide (a < faceCenter f) && decide (faceCenter f < b)) with
  | none => left; rfl
  | some f =>
    right
    simp only [faceCenter]
    exact Int.natCast_nonneg _

/-- The hysteresis update preserves the window invariant, provided
the center is the default or non-negative. -/
theorem hysteresisWindow_inv (ow vw : Nat) (st : CropState) (c : Int)
    (hinv : winInv ow vw (st.x_start, st.x_end))
    (hc : c = st.x_start + (vw : Int) / 2 ∨ 0 ≤ c) :
    winInv ow vw (hysteresisWindow st c ((vw : Int) / 2)) := by
  obtain ⟨hw, hs, he⟩ := hinv
  simp only at hw hs he
  unfold hysteresisWindow
  split
  · exact ⟨hw, hs, he⟩
  · rename_i hcond
    push_neg at hcond
    obtain ⟨hfc, hshift⟩ := hcond
    rcases hc with hc | hc
    · exfalso
      omega
    · refine ⟨Or.inr ?_, ?_, ?_⟩ <;> simp only <;> omega

/-- A non-empty numpy slice whose window is no wider than the frame
and whose end bound is non-negative must begin at a non-negative
bound. -/
theorem slice_pos_start {ow : Nat} {a b : Int} (h : ¬ pySliceWidth ow a b = 0)
    (hwid : b - a ≤ (ow : Int)) (hb : 0 ≤ b) : 0 ≤ a := by
  simp only [pySliceWidth, npIndex] at h
  split_ifs at h <;> omega

/-- One frame step preserves the window invariant and writes a
window with target (or recentered) width and an in-bounds start. -/
theorem cropStep_ok (ow vw : Nat) (st : CropState) (faces : List Face)
    (hvw : vw ≤ ow) (hinv : winInv ow vw (st.x_start, st.x_end)) :
    writtenOk ow vw (cropStep ow vw st faces).1
    ∧ winInv ow vw ((cropStep ow vw st faces).2.x_start, (cropStep ow vw st faces).2.x_end) := by
  have hwin := hysteresisWindow_inv ow vw st (computeCenterX faces st.x_start st.x_end vw)
    hinv (computeCenterX_cases faces st.x_start st.x_end vw)
  obtain ⟨hw, hs, he⟩ := hwin
  simp only [cropStep]
  split
  · constructor
    · refine ⟨Or.inl ?_, ?_, ?_⟩ <;> simp only <;> omega
    · refine ⟨Or.inl ?_, ?_, ?_⟩ <;> simp only <;> omega
  · rename_i hz
    have h0 : 0 ≤ (hysteresisWindow st (computeCenterX faces st.x_start st.x_end vw)
        ((vw : Int) / 2)).1 := by
      apply slice_pos_start hz _ he
      omega
    have hb2 : (hysteresisWindow st (computeCenterX faces st.x_start st.x_end vw)
        ((vw : Int) / 2)).1 ≤ (ow : Int) - vw := by
      omega
    constructor
    · exact ⟨hw, h0, hb2⟩
    · exact ⟨hw, hs, he⟩

/-- Every window written by the frame loop satisfies `writtenOk`,
for any accumulator of already-written good windows and any state
satisfying the invariant. -/
theorem cropRun_writtenOk (ow vw : Nat) (hvw : vw ≤ ow) (frames : List (List Face)) :
    ∀ (acc : List (Int × Int)) (st : CropState),
      winInv ow vw (st.x_start, st.x_end) →
      (∀ w ∈ acc, writtenOk ow vw w) →
      ∀ w ∈ (frames.foldl
          (fun acc2 faces =>
            let r := cropStep ow vw acc2.2 faces
            (acc2.1 ++ [r.1], r.2)) (acc, st)).1,
        writtenOk ow vw w := by
  induction frames with
  | nil =>
    intro acc st hst hacc
    simpa using hacc
  | cons fr rest ih =>
    intro acc st hst hacc
    simp only [List.foldl_cons]
    have hstep := cropStep_ok ow vw st fr hvw hst
    refine ih (acc ++ [(cropStep ow vw st fr).1]) (cropStep ow vw st fr).2 hstep.2 ?_
    intro w hw
    rcases List.mem_append.mp hw with h | h
    · exact hacc w h
    · simp only [List.mem_singleton] at h
      subst h
      exact hstep.1

/- ===================================================================
   Claim C5
   =================================================================== -/

/-- C5 counterexample: on frame 1 the selected face center is 101,
so `centerX - half_width = 56` differs from `x_start = 55` by 1 pixel
in absolute value, yet the window does not move: the test at line 141
of Components/FaceCrop.py compares the signed difference
`x_start - (centerX - half_width) = -1 < 1`, so rightward shifts
never recenter the window. -/
theorem C5_counterexample :
    (cropRun 200 90 [[], [⟨81, 0, 40, 30⟩]]).1 = [(55, 145), (55, 145)]
    ∧ computeCenterX [⟨81, 0, 40, 30⟩] 55 145 90 = 101
    ∧ (1 : Int) ≤ |55 - (101 - 45)|
    ∧ ((55 : Int), (145 : Int)) ≠ (101 - 45, 101 + 45) := by
  decide

/-- C5 amended: after the first frame the window is recentered
exactly when the signed difference `x_start - (centerX - half_width)`
is at least 1 (a leftward move of at least one pixel); when that
signed difference is below 1 — including every rightward shift,
however large — the window does not move. -/
theorem C5_amended_thm (st : CropState) (centerX half_width : Int)
    (hfc : st.frame_count ≠ 0) :
    (1 ≤ st.x_start - (centerX - half_width) →
      hysteresisWindow st centerX half_width
        = (centerX - half_width, centerX + half_width))
    ∧ (st.x_start - (centerX - half_width) < 1 →
      hysteresisWindow st centerX half_width = (st.x_start, st.x_end)) := by
  constructor
  · intro h
    unfold hysteresisWindow
    rw [if_neg]
    rintro (h0 | hlt)
    · exact hfc h0
    · omega
  · intro h
    unfold hysteresisWindow
    rw [if_pos (Or.inr h)]

/-- C5 amended, witnessed at the frame-1 state of the counterexample
run. -/
theorem C5_amended_witness :
    ((⟨55, 145, 1⟩ : CropState).frame_count ≠ 0)
    ∧ ((1 ≤ (55 : Int) - (101 - 45) →
        hysteresisWindow ⟨55, 145, 1⟩ 101 45 = (101 - 45, 101 + 45))
       ∧ ((55 : Int) - (101 - 45) < 1 →
        hysteresisWindow ⟨55, 145, 1⟩ 101 45 = (55, 145))) :=
  ⟨by decide, C5_amended_thm ⟨55, 145, 1⟩ 101 45 (by decide)⟩

/- ===================================================================
   Claim C6
   =================================================================== -/

/-- C6 counterexample: with frame height 91 the target width is 51
(odd), and after the recentering on frame 1 the written window is
`(50, 100)`, of width `2 * (51 / 2) = 50`, not 51: the width is not
constant when the target width is odd. -/
theorem C6_counterexample :
    verticalWidth 91 = 51
    ∧ (cropRun 200 (verticalWidth 91) [[], [⟨70, 0, 10, 10⟩]]).1 = [(74, 125), (50, 100)]
    ∧ ¬((100 : Int) - 50 = ((verticalWidth 91 : Nat) : Int)) := by
  decide

/-- C6 amended: every frame written by `crop_to_vertical` has a crop
window whose width is the target width `floor(height * 9 / 16)` or
twice its integer half (one pixel less when the target width is odd),
and whose start satisfies `0 ≤ x_start ≤ original_width - width`. -/
theorem C6_amended_thm (ow oh : Nat) (frames : List (List Face)) (ws : List (Int × Int))
    (h : crop_to_vertical ow oh frames = some ws) :
    ∀ w ∈ ws,
      (w.2 - w.1 = (verticalWidth oh : Int)
        ∨ w.2 - w.1 = 2 * ((verticalWidth oh : Int) / 2))
      ∧ 0 ≤ w.1 ∧ w.1 ≤ (ow : Int) - verticalWidth oh := by
  simp only [crop_to_vertical] at h
  split at h
  · cases h
  · rename_i hge
    injection h with h
    subst h
    intro w hw
    have hvw : verticalWidth oh ≤ ow := by omega
    have hinit : winInv ow (verticalWidth oh)
        ((initialCrop ow (verticalWidth oh)).x_start,
         (initialCrop ow (verticalWidth oh)).x_end) := by
      refine ⟨Or.inl ?_, ?_, ?_⟩ <;> simp only [initialCrop] <;> omega
    have := cropRun_writtenOk ow (verticalWidth oh) hvw frames [] _ hinit (by simp) w hw
    exact this

/-- C6 amended, witnessed at a concrete run exhibiting both widths. -/
theorem C6_amended_witness :
    crop_to_vertical 200 91 [[], [⟨70, 0, 10, 10⟩]] = some [(74, 125), (50, 100)]
    ∧ ∀ w ∈ [((74 : Int), (125 : Int)), (50, 100)],
      (w.2 - w.1 = (verticalWidth 91 : Int)
        ∨ w.2 - w.1 = 2 * ((verticalWidth 91 : Int) / 2))
      ∧ 0 ≤ w.1 ∧ w.1 ≤ (200 : Int) - verticalWidth 91 :=
  ⟨by decide, C6_amended_thm 200 91 [[], [⟨70, 0, 10, 10⟩]] [(74, 125), (50, 100)] (by decide)⟩

/- ===================================================================
   Claim C7
   =================================================================== -/

/-- C7 counterexample: a reachable run in which the window drifts to
`(-22, 28)` on frame 4; the slice is empty, the fallback resets the
window to the centered default `(74, 125)`, and the state carried
into the next iteration is the reset window `(74, 125)`, not the
pre-reset drifted window `(-22, 28)`. -/
theorem C7_counterexample :
    (cropRun 200 51 [[], [⟨70, 0, 10, 10⟩], [⟨46, 0, 10, 10⟩], [⟨22, 0, 10, 10⟩]]).2
      = ⟨2, 52, 4⟩
    ∧ hysteresisWindow ⟨2, 52, 4⟩ (computeCenterX [⟨0, 0, 6, 10⟩] 2 52 51) ((51 : Int) / 2)
      = (-22, 28)
    ∧ pySliceWidth 200 (-22) 28 = 0
    ∧ (cropStep 200 51 ⟨2, 52, 4⟩ [⟨0, 0, 6, 10⟩]).2 = ⟨74, 125, 5⟩
    ∧ ((⟨74, 125, 5⟩ : CropState) ≠ ⟨-22, 28, 5⟩) := by
  decide

/-- C7 amended: when the zero-width-slice fallback triggers on a
frame, the reset is persistent: the frame is written with the
centered default window AND the state carried into the next frame
iteration is that same centered default window, not the pre-reset
drifted window. -/
theorem C7_amended_thm (ow vw : Nat) (st : CropState) (faces : List Face)
    (h : pySliceWidth ow
        (hysteresisWindow st (computeCenterX faces st.x_start st.x_end vw) ((vw : Int) / 2)).1
        (hysteresisWindow st (computeCenterX faces st.x_start st.x_end vw) ((vw : Int) / 2)).2
      = 0) :
    (cropStep ow vw st faces).1
      = (((ow : Int) - vw) / 2, ((ow : Int) - vw) / 2 + vw)
    ∧ (cropStep ow vw st faces).2
      = ⟨((ow : Int) - vw) / 2, ((ow : Int) - vw) / 2 + vw, st.frame_count + 1⟩ := by
  simp only [cropStep]
  rw [if_pos h]
  exact ⟨rfl, rfl⟩

/-- C7 amended, witnessed at the drifted frame-4 state of the
counterexample run. -/
theorem C7_amended_witness :
    pySliceWidth 200
        (hysteresisWindow ⟨2, 52, 4⟩ (computeCenterX [⟨0, 0, 6, 10⟩] 2 52 51) ((51 : Int) / 2)).1
        (hysteresisWindow ⟨2, 52, 4⟩ (computeCenterX [⟨0, 0, 6, 10⟩] 2 52 51) ((51 : Int) / 2)).2
      = 0
    ∧ (cropStep 200 51 ⟨2, 52, 4⟩ [⟨0, 0, 6, 10⟩]).1
      = (((200 : Int) - 51) / 2, ((200 : Int) - 51) / 2 + 51)
    ∧ (cropStep 200 51 ⟨2, 52, 4⟩ [⟨0, 0, 6, 10⟩]).2
      = ⟨((200 : Int) - 51) / 2, ((200 : Int) - 51) / 2 + 51, 4 + 1⟩ :=
  ⟨by decide,
   (C7_amended_thm 200 51 ⟨2, 52, 4⟩ [⟨0, 0, 6, 10⟩] (by decide)).1,
   (C7_amended_thm 200 51 ⟨2, 52, 4⟩ [⟨0, 0, 6, 10⟩] (by decide)).2⟩
